import Mathlib

/-!
Verification of the customer-service chat client (songshue/customer_server).

This file gives a shallow embedding of the client-side logic the specification
talks about, translated from the TypeScript source:

* the reference extractor of src/frontend/src/components/ChatInterface.vue
  (functions checkHasReferences / extractReferences / parseReferences);
* the WebSocket stream reassembler and transport adapter of
  src/frontend/src/utils/websocket.ts (class WebSocketManager);
* the chat message store of src/frontend/src/stores/chat.ts (useChatStore).

JavaScript strings are modelled as Lean String (lists of characters),
optional fields as Option, maps as association lists, and the mutable class
state as explicit state passing.  Scheduled timers (setTimeout) are modelled
by returning the scheduled action together with its delay.
-/

namespace CustomerServer

/-- The citation record interface shared by websocket.ts and types/chat.ts:
a source label plus a preview snippet. -/
structure Reference where
  source : String
  content_preview : String
deriving Repr, DecidableEq, Inhabited

/-! ### Reference extractor (ChatInterface.vue) -/

/-- The JavaScript regex character class for a digit. -/
def isDigitChar (c : Char) : Bool := '0' ≤ c && c ≤ '9'

/-- The JavaScript regex character class for whitespace (ASCII part; the
repository's inputs only use spaces, tabs and newlines). -/
def isSpaceChar (c : Char) : Bool :=
  c = ' ' || c = '\t' || c = '\n' || c = '\r' || c = '\x0b' || c = '\x0c'

/-- All ways of splitting a list into a nonempty prefix of characters
satisfying a class and the remaining suffix, longest prefix first.  This is
the backtracking order in which a greedy one-or-more regex atom offers its
matches. -/
def plusSplits (p : Char → Bool) (l : List Char) : List (List Char × List Char) :=
  let n := (l.takeWhile p).length
  (List.range n).map (fun k => (l.take (n - k), l.drop (n - k)))

/-- Like plusSplits but also offering the empty prefix last, as a greedy
zero-or-more regex atom does. -/
def starSplits (p : Char → Bool) (l : List Char) : List (List Char × List Char) :=
  let n := (l.takeWhile p).length
  (List.range (n + 1)).map (fun k => (l.take (n - k), l.drop (n - k)))

/-- Backtracking matcher for the citation-line regex of parseReferences in
ChatInterface.vue, anchored at the start of the string only; the dot class
does not match a newline, the match may stop before the end of the string.
On success it returns the two capture groups: the source label and the
preview text.  The pattern is, in order: one or more digits, a literal dot,
one or more whitespace characters, one or more non-newline characters
(captured), zero or more whitespace characters, a literal newline, one or
more whitespace characters, one or more non-newline characters (captured). -/
def refLineMatch (l : List Char) : Option (List Char × List Char) :=
  (plusSplits isDigitChar l).findSome? fun dg =>
    match dg.2 with
    | '.' :: r2 =>
      (plusSplits isSpaceChar r2).findSome? fun w1 =>
        (plusSplits (fun c => c != '\n') w1.2).findSome? fun b =>
          (starSplits isSpaceChar b.2).findSome? fun s =>
            match s.2 with
            | '\n' :: r6 =>
              (plusSplits isSpaceChar r6).findSome? fun w2 =>
                (plusSplits (fun c => c != '\n') w2.2).findSome? fun pv =>
                  some (b.1, pv.1)
            | _ => none
    | _ => none

/-- Prepend one character to the first piece of a split. -/
def consHead (c : Char) : List (List Char) → List (List Char)
  | [] => [[c]]
  | h :: t => (c :: h) :: t

/-- The JavaScript split of a string at every newline character, as used by
content.split in parseReferences.  Splitting the empty string yields one
empty piece. -/
def splitOnNl : List Char → List (List Char)
  | [] => [[]]
  | c :: cs => if c = '\n' then [] :: splitOnNl cs else consHead c (splitOnNl cs)

/-- The JavaScript join of a list of lines with a newline separator, as used
by textLines.join in parseReferences. -/
def joinNl : List (List Char) → List Char
  | [] => []
  | [x] => x
  | x :: y :: t => x ++ '\n' :: joinNl (y :: t)

/-- The literal reference marker the parser scans for. -/
def refMarker : List Char := "**参考文档:**".data

/-- Whether a list contains another as a contiguous segment; this models the
JavaScript string includes test. -/
def containsSub (pat : List Char) : List Char → Bool
  | [] => pat.isPrefixOf []
  | c :: cs => pat.isPrefixOf (c :: cs) || containsSub pat cs

/-- The marker test of parseReferences on one line. -/
def containsMarker (line : List Char) : Bool := containsSub refMarker line

/-- The result object of parseReferences: the visible text and the extracted
citation records. -/
structure ParseResult where
  text : String
  references : List Reference
deriving Repr, DecidableEq

/-- The per-line loop of parseReferences: a line containing the marker sets
the in-reference-section flag and is skipped; after the marker each line is
run through the citation regex, a match being recorded and anything else
silently dropped; before the marker every line is collected as visible
text. -/
def parseLinesGo : List (List Char) → Bool → List (List Char) × List Reference
  | [], _ => ([], [])
  | line :: rest, inRef =>
    if containsMarker line then
      parseLinesGo rest true
    else if inRef then
      let (t, r) := parseLinesGo rest true
      match refLineMatch line with
      | some (s, p) => (t, ⟨String.mk s, String.mk p⟩ :: r)
      | none => (t, r)
    else
      let (t, r) := parseLinesGo rest false
      (line :: t, r)

/-- parseReferences from ChatInterface.vue: split the content into lines,
collect the lines before the marker as visible text joined by newlines, and
run the citation regex on every line after the marker. -/
def parseReferences (content : String) : ParseResult :=
  let (t, r) := parseLinesGo (splitOnNl content.data) false
  ⟨String.mk (joinNl t), r⟩

/-! ### WebSocket stream reassembler (websocket.ts) -/

/-- A parsed server frame, the WebSocketMessage interface of websocket.ts;
optional interface fields are Options. -/
structure WebSocketMessage where
  type : String
  content : Option String := none
  message : Option String := none
  sender : Option String := none
  timestamp : String := ""
  has_references : Option Bool := none
  references : Option (List Reference) := none
  is_stream : Option Bool := none
  stream_id : Option String := none
  chunk_index : Option Nat := none
  total_chunks : Option Nat := none
  is_final : Option Bool := none
deriving Repr, DecidableEq

/-- JavaScript logical-or with an optional string on the left: undefined and
the empty string are falsy. -/
def jsOrStr : Option String → String → String
  | some s, b => if s = "" then b else s
  | none, b => b

/-- JavaScript logical-or with an optional number on the left: undefined and
zero are falsy. -/
def jsOrNat : Option Nat → Nat → Nat
  | some n, b => if n = 0 then b else n
  | none, b => b

/-- JavaScript logical-or with an optional boolean on the left. -/
def jsOrBool : Option Bool → Bool → Bool
  | some x, b => x || b
  | none, b => b

/-- JavaScript truthiness of an optional string field. -/
def jsTruthyStr : Option String → Bool
  | some s => s != ""
  | none => false

/-- One entry of the streamMessages map of WebSocketManager. -/
structure StreamMessage where
  content : String
  chunks : Nat
  totalChunks : Nat
  references : List Reference
  hasReferences : Bool
  lastUpdate : Nat
deriving Repr, DecidableEq

/-- The streamMessages map, keyed by stream identifier. -/
abbrev StreamMap := List (String × StreamMessage)

/-- Map lookup by stream identifier. -/
def StreamMap.get (m : StreamMap) (k : String) : Option StreamMessage :=
  (m.find? (fun e => e.1 == k)).map (fun e => e.2)

/-- Map update: replace the entry for the key, or add one if absent. -/
def StreamMap.set (m : StreamMap) (k : String) (v : StreamMessage) : StreamMap :=
  match m with
  | [] => [(k, v)]
  | e :: t => if e.1 == k then (k, v) :: t else e :: StreamMap.set t k v

/-- Map deletion, as performed by the delayed cleanup of a finished stream. -/
def StreamMap.erase (m : StreamMap) (k : String) : StreamMap :=
  m.filter (fun e => !(e.1 == k))

/-- A notification delivered to the registered stream listeners: the stream
identifier, the content so far, and the completion flag. -/
structure StreamEvent where
  messageId : String
  content : String
  isComplete : Bool
deriving Repr, DecidableEq

/-- The visible outcome of one handleStreamMessage call: the updated map,
the notifications sent to the stream listeners in order, and the scheduled
buffer deletions as pairs of stream identifier and delay in milliseconds. -/
structure StreamStepResult where
  map : StreamMap
  events : List StreamEvent
  timers : List (String × Nat)
deriving Repr, DecidableEq

/-- The update of the citation fields performed by the chunk and end
branches: they are overwritten only when the frame's has-references flag is
true and its references field is present. -/
def mergeRefs (has_references : Option Bool) (references : Option (List Reference))
    (sm : StreamMessage) : List Reference × Bool :=
  match has_references, references with
  | some true, some rs => (rs, true)
  | _, _ => (sm.references, sm.hasReferences)

/-- handleStreamMessage from websocket.ts.  The wall-clock reading used for
the last-update field is passed in as now.  A frame without a truthy stream
identifier returns immediately.  A start frame installs a fresh buffer and
notifies with empty content; a chunk frame appends to the buffer, creating
one if the start frame was lost, and notifies with the accumulated text; an
end frame overwrites the buffer content with the frame's content when that
is truthy, notifies completion, and schedules the buffer's deletion after
5000 milliseconds — or, when no buffer exists, notifies completion with the
frame's content directly. -/
def handleStreamMessage (now : Nat) (msg : WebSocketMessage) (m : StreamMap) :
    StreamStepResult :=
  match msg.stream_id with
  | none => ⟨m, [], []⟩
  | some sid =>
    if sid = "" then ⟨m, [], []⟩
    else if msg.type = "stream_start" then
      let sm : StreamMessage :=
        { content := ""
          chunks := 0
          totalChunks := jsOrNat msg.total_chunks 1
          references := msg.references.getD []
          hasReferences := jsOrBool msg.has_references false
          lastUpdate := now }
      ⟨StreamMap.set m sid sm, [⟨sid, "", false⟩], []⟩
    else if msg.type = "stream_message" then
      match StreamMap.get m sid with
      | none =>
        let sm : StreamMessage :=
          { content := jsOrStr msg.content ""
            chunks := jsOrNat msg.chunk_index 0
            totalChunks := jsOrNat msg.total_chunks 1
            references := msg.references.getD []
            hasReferences := jsOrBool msg.has_references false
            lastUpdate := now }
        ⟨StreamMap.set m sid sm, [⟨sid, jsOrStr (some sm.content) "", false⟩], []⟩
      | some sm =>
        let mr := mergeRefs msg.has_references msg.references sm
        let sm2 : StreamMessage :=
          { content := sm.content ++ jsOrStr msg.content ""
            chunks := jsOrNat msg.chunk_index sm.chunks
            totalChunks := sm.totalChunks
            references := mr.1
            hasReferences := mr.2
            lastUpdate := now }
        ⟨StreamMap.set m sid sm2, [⟨sid, jsOrStr (some sm2.content) "", false⟩], []⟩
    else if msg.type = "stream_end" then
      match StreamMap.get m sid with
      | some sm =>
        let mr := mergeRefs msg.has_references msg.references sm
        let sm2 : StreamMessage :=
          { content := jsOrStr msg.content sm.content
            chunks := jsOrNat msg.chunk_index sm.chunks
            totalChunks := sm.totalChunks
            references := mr.1
            hasReferences := mr.2
            lastUpdate := now }
        ⟨StreamMap.set m sid sm2,
         [⟨sid, jsOrStr (some sm2.content) (jsOrStr msg.content ""), true⟩],
         [(sid, 5000)]⟩
      | none =>
        ⟨m, [⟨sid, jsOrStr msg.content "", true⟩], []⟩
    else ⟨m, [], []⟩

/-- The stream-frame test of handleMessage: the frame carries a truthy
stream identifier and either the is-stream flag or one of the three stream
frame tags. -/
def isStreamFrame (msg : WebSocketMessage) : Bool :=
  jsTruthyStr msg.stream_id &&
    (msg.is_stream == some true || msg.type == "stream_start" ||
     msg.type == "stream_message" || msg.type == "stream_end")

/-- The visible outcome of one handleMessage call on an already parsed
frame: the updated map, stream notifications, scheduled deletions, and the
frames handed to the ordinary message listeners. -/
structure HandleResult where
  map : StreamMap
  events : List StreamEvent
  timers : List (String × Nat)
  delivered : List WebSocketMessage
deriving Repr, DecidableEq

/-- handleMessage from websocket.ts, after JSON parsing: a stream frame is
diverted to handleStreamMessage and nothing else runs; any other frame is
handed to every registered message listener. -/
def handleMessage (now : Nat) (msg : WebSocketMessage) (m : StreamMap) :
    HandleResult :=
  if isStreamFrame msg then
    let r := handleStreamMessage now msg m
    ⟨r.map, r.events, r.timers, []⟩
  else
    ⟨m, [], [], [msg]⟩

/-- Sequential processing of a list of stream frames, accumulating the
emitted notifications and scheduled deletions in order. -/
def runStream (now : Nat) : List WebSocketMessage → StreamMap →
    StreamMap × List StreamEvent × List (String × Nat)
  | [], m => (m, [], [])
  | f :: fs, m =>
    let r := handleStreamMessage now f m
    let rest := runStream now fs r.map
    (rest.1, r.events ++ rest.2.1, r.timers ++ rest.2.2)

/-- The completion notifications among a list of stream events. -/
def completions (evs : List StreamEvent) : List StreamEvent :=
  evs.filter (fun e => e.isComplete)

/-- The concatenation, in arrival order, of the contents carried by a list
of frames, an absent or empty content contributing nothing. -/
def concatContents : List WebSocketMessage → String
  | [] => ""
  | f :: fs => jsOrStr f.content "" ++ concatContents fs

/-- A chunk frame carrying only a stream identifier and content, as in the
stream-reassembly property of the specification. -/
def chunkFrame (sid : String) (c : Option String) : WebSocketMessage :=
  { type := "stream_message", stream_id := some sid, content := c }

/-- An end frame carrying only a stream identifier and optional content. -/
def endFrame (sid : String) (c : Option String) : WebSocketMessage :=
  { type := "stream_end", stream_id := some sid, content := c }

/-! ### Transport adapter: reconnection and sending (websocket.ts) -/

/-- The retry cap of WebSocketManager. -/
def maxReconnectAttempts : Nat := 5

/-- The base reconnection delay of WebSocketManager, in milliseconds. -/
def reconnectInterval : Nat := 3000

/-- scheduleReconnect: increment the attempt counter and schedule one timer
whose delay is the base interval times the new counter value.  Returns the
new counter and the scheduled delay. -/
def scheduleReconnect (attempts : Nat) : Nat × Nat :=
  (attempts + 1, reconnectInterval * (attempts + 1))

/-- The onclose handler of connect: an unclean close below the retry cap
calls scheduleReconnect; any other close schedules nothing.  Returns the new
attempt counter and the scheduled delay, if any. -/
def onClose (wasClean : Bool) (attempts : Nat) : Nat × Option Nat :=
  if !wasClean && decide (attempts < maxReconnectAttempts) then
    let r := scheduleReconnect attempts
    (r.1, some r.2)
  else (attempts, none)

/-- disconnect: stopReconnect cancels any pending timer and resets the
counter to zero, then the socket is closed deliberately with code 1000, so
the subsequent close event is clean and its onclose handler schedules
nothing. -/
def disconnect (_attempts : Nat) : Nat × Option Nat :=
  onClose true 0

/-- The delays scheduled by a run of consecutive unclean closes with no
successful open in between, starting from the given attempt counter. -/
def uncleanCloseRun : Nat → Nat → List Nat
  | 0, _ => []
  | n + 1, attempts =>
    match onClose false attempts with
    | (a, some d) => d :: uncleanCloseRun n a
    | (a, none) => uncleanCloseRun n a

/-- The ready states of a browser WebSocket. -/
inductive ReadyState where
  | CONNECTING
  | OPEN
  | CLOSING
  | CLOSED
deriving Repr, DecidableEq

/-- The JSON envelope built by sendMessage. -/
structure Envelope where
  type : String
  content : String
  timestamp : String
  enable_multi_agent : Bool
deriving Repr, DecidableEq

/-- sendMessage from WebSocketManager.  The socket handle is modelled by the
optional ready state of this.ws, the timestamp the Date constructor would
produce is passed in, and sendOk models whether the underlying send call
throws, which the surrounding try-catch converts into a false return.  The
result is the returned success flag together with the envelope handed to the
socket's send, if the call reached it. -/
def sendMessage (ws : Option ReadyState) (content : String) (timestamp : String)
    (sendOk : Bool) : Bool × Option Envelope :=
  match ws with
  | none => (false, none)
  | some st =>
    if st ≠ ReadyState.OPEN then (false, none)
    else if sendOk then (true, some ⟨"message", content, timestamp, true⟩)
    else (false, some ⟨"message", content, timestamp, true⟩)

/-! ### Chat message store (stores/chat.ts) -/

/-- The ChatMessage interface of types/chat.ts; optional fields are
Options and the timestamp is a clock reading. -/
structure ChatMessage where
  id : String
  type : String
  content : String
  timestamp : Nat
  hasReferences : Option Bool := none
  references : Option (List Reference) := none
  isStreaming : Option Bool := none
  streamId : Option String := none
  feedbackSubmitted : Option Bool := none
deriving Repr, DecidableEq, Inhabited

/-- The state of useChatStore: the finalized message list and the single
streaming slot. -/
structure ChatStore where
  messages : List ChatMessage
  streamingMessage : Option ChatMessage
deriving Repr, DecidableEq

/-- The initial store state: no messages, empty streaming slot. -/
def ChatStore.init : ChatStore := ⟨[], none⟩

/-- addMessage: append one message to the list. -/
def addMessage (s : ChatStore) (m : ChatMessage) : ChatStore :=
  { s with messages := s.messages ++ [m] }

/-- The fresh streaming message created by addOrUpdateStreamingMessage when
the slot is empty: role ai, streaming flag set, no references yet. -/
def freshStreamingMsg (content streamId : String)
    (references : Option (List Reference)) (freshId : String) (now : Nat) :
    ChatMessage :=
  { id := freshId
    type := "ai"
    content := content
    timestamp := now
    isStreaming := some true
    streamId := some streamId
    hasReferences := some false
    references := some (references.getD []) }

/-- The finalization performed on the slot's message when a completion call
arrives: the streaming flag is cleared and the citation fields are set from
the references argument, the has-references flag becoming undefined when no
references were supplied, as the JavaScript and-expression leaves it. -/
def finalizeStreamingMsg (sm : ChatMessage)
    (references : Option (List Reference)) : ChatMessage :=
  { sm with
    isStreaming := some false
    hasReferences := references.map (fun rs => decide (0 < rs.length))
    references := some (references.getD []) }

/-- addOrUpdateStreamingMessage from stores/chat.ts.  When the slot is
occupied its content is overwritten; on completion the slot's message is
finalized, appended to the list, and the slot is emptied.  When the slot is
empty and the call is not a completion, a fresh streaming message is created
in the slot, its identifier and clock reading passed in as freshId and now;
a completion call on an empty slot does nothing. -/
def addOrUpdateStreamingMessage (s : ChatStore) (content : String)
    (isComplete : Bool) (streamId : String) (references : Option (List Reference))
    (freshId : String) (now : Nat) : ChatStore :=
  match s.streamingMessage with
  | some sm =>
    let sm1 := { sm with content := content }
    if isComplete then
      { messages := s.messages ++ [finalizeStreamingMsg sm1 references]
        streamingMessage := none }
    else
      { s with streamingMessage := some sm1 }
  | none =>
    if !isComplete then
      let fresh := freshStreamingMsg content streamId references freshId now
      { s with streamingMessage := some fresh }
    else s

/-- clearMessages: empty both the list and the slot. -/
def clearMessages (_s : ChatStore) : ChatStore := ⟨[], none⟩

/-- All in-progress chat messages held by the store: the finalized entries
whose streaming flag is set, together with the slot's message when its flag
is set. -/
def streamingEntries (s : ChatStore) : List ChatMessage :=
  s.messages.filter (fun m => m.isStreaming == some true) ++
    (match s.streamingMessage with
     | some sm => List.filter (fun m => m.isStreaming == some true) [sm]
     | none => [])

/-- The store states reachable from the initial state by the store's
operations, addMessage being applied only to non-streaming messages as the
callers in ChatInterface.vue do. -/
inductive Reachable : ChatStore → Prop where
  | init : Reachable ChatStore.init
  | add {s : ChatStore} {m : ChatMessage} :
      Reachable s → m.isStreaming ≠ some true → Reachable (addMessage s m)
  | stream {s : ChatStore}
      (content : String) (isComplete : Bool) (streamId : String)
      (references : Option (List Reference)) (freshId : String) (now : Nat) :
      Reachable s →
      Reachable (addOrUpdateStreamingMessage s content isComplete streamId
        references freshId now)
  | clear {s : ChatStore} : Reachable s → Reachable (clearMessages s)

/-! ### Lemmas about the reference extractor -/

theorem mem_plusSplits {p : Char → Bool} {l : List Char} {x : List Char × List Char}
    (h : x ∈ plusSplits p l) : ∃ m, x.2 = l.drop m := by
  unfold plusSplits at h
  simp only [List.mem_map, List.mem_range] at h
  obtain ⟨k, -, rfl⟩ := h
  exact ⟨_, rfl⟩

theorem mem_starSplits {p : Char → Bool} {l : List Char} {x : List Char × List Char}
    (h : x ∈ starSplits p l) : ∃ m, x.2 = l.drop m := by
  unfold starSplits at h
  simp only [List.mem_map, List.mem_range] at h
  obtain ⟨k, -, rfl⟩ := h
  exact ⟨_, rfl⟩

theorem not_mem_drop {c : Char} {l : List Char} (h : c ∉ l) (m : Nat) :
    c ∉ l.drop m :=
  fun hx => h (List.drop_subset m l hx)

/-- The citation-line regex demands a literal newline, so it can never match
a string that contains none. -/
theorem refLineMatch_eq_none {l : List Char} (h : '\n' ∉ l) :
    refLineMatch l = none := by
  unfold refLineMatch
  rw [List.findSome?_eq_none_iff]
  intro dg hdg
  obtain ⟨m1, hm1⟩ := mem_plusSplits hdg
  have h1 : '\n' ∉ dg.2 := hm1 ▸ not_mem_drop h m1
  split
  · next r2 heq =>
    have h2 : '\n' ∉ r2 := fun hx => h1 (heq ▸ List.mem_cons_of_mem _ hx)
    rw [List.findSome?_eq_none_iff]
    intro w1 hw1
    obtain ⟨m2, hm2⟩ := mem_plusSplits hw1
    have h3 : '\n' ∉ w1.2 := hm2 ▸ not_mem_drop h2 m2
    rw [List.findSome?_eq_none_iff]
    intro b hb
    obtain ⟨m3, hm3⟩ := mem_plusSplits hb
    have h4 : '\n' ∉ b.2 := hm3 ▸ not_mem_drop h3 m3
    rw [List.findSome?_eq_none_iff]
    intro sp hsp
    obtain ⟨m4, hm4⟩ := mem_starSplits hsp
    have h5 : '\n' ∉ sp.2 := hm4 ▸ not_mem_drop h4 m4
    split
    · next r6 heq6 => exact absurd (heq6 ▸ List.mem_cons_self _ _) h5
    · rfl
  · rfl

theorem splitOnNl_ne_nil (l : List Char) : splitOnNl l ≠ [] := by
  cases l with
  | nil => simp [splitOnNl]
  | cons c cs =>
    rw [splitOnNl]
    by_cases hc : c = '\n'
    · simp [hc]
    · rw [if_neg hc]
      cases splitOnNl cs with
      | nil => simp [consHead]
      | cons h t => simp [consHead]

theorem not_nl_mem_of_mem_splitOnNl :
    ∀ {l line : List Char}, line ∈ splitOnNl l → '\n' ∉ line := by
  intro l
  induction l with
  | nil =>
    intro line h
    rw [splitOnNl] at h
    simp only [List.mem_singleton] at h
    subst h
    simp
  | cons c cs ih =>
    intro line h
    rw [splitOnNl] at h
    by_cases hc : c = '\n'
    · rw [if_pos hc] at h
      rcases List.mem_cons.mp h with h0 | h1
      · subst h0; simp
      · exact ih h1
    · rw [if_neg hc] at h
      cases hsp : splitOnNl cs with
      | nil => exact absurd hsp (splitOnNl_ne_nil cs)
      | cons hd t =>
        rw [hsp, consHead] at h
        rcases List.mem_cons.mp h with h0 | h1
        · subst h0
          intro hx
          rcases List.mem_cons.mp hx with hx0 | hx1
          · exact hc hx0.symm
          · exact ih (hsp ▸ List.mem_cons_self hd t) hx1
        · exact ih (hsp ▸ List.mem_cons_of_mem hd h1)

theorem joinNl_splitOnNl : ∀ l : List Char, joinNl (splitOnNl l) = l := by
  intro l
  induction l with
  | nil => rfl
  | cons c cs ih =>
    rw [splitOnNl]
    by_cases hc : c = '\n'
    · rw [if_pos hc]
      cases hsp : splitOnNl cs with
      | nil => exact absurd hsp (splitOnNl_ne_nil cs)
      | cons hd t =>
        rw [hsp] at ih
        rw [joinNl]
        subst hc
        simp only [List.nil_append]
        rw [ih]
    · rw [if_neg hc]
      cases hsp : splitOnNl cs with
      | nil => exact absurd hsp (splitOnNl_ne_nil cs)
      | cons hd t =>
        rw [hsp] at ih
        rw [consHead]
        cases t with
        | nil =>
          rw [joinNl] at ih ⊢
          rw [ih]
        | cons y t2 =>
          rw [joinNl] at ih ⊢
          rw [List.cons_append, ih]

theorem parseLinesGo_refs_eq_nil {lines : List (List Char)}
    (h : ∀ line ∈ lines, '\n' ∉ line) :
    ∀ inRef : Bool, (parseLinesGo lines inRef).2 = [] := by
  induction lines with
  | nil => intro inRef; rfl
  | cons line rest ih =>
    intro inRef
    have hline : '\n' ∉ line := h line (List.mem_cons_self _ _)
    have hrest : ∀ l ∈ rest, '\n' ∉ l := fun l hl => h l (List.mem_cons_of_mem _ hl)
    rw [parseLinesGo]
    by_cases hm : containsMarker line
    · rw [if_pos hm]
      exact ih hrest true
    · rw [if_neg hm]
      by_cases hr : inRef
      · rw [if_pos hr, refLineMatch_eq_none hline]
        have := ih hrest true
        cases hpr : parseLinesGo rest true with
        | mk t r => rw [hpr] at this; exact this
      · rw [if_neg hr]
        have := ih hrest false
        cases hpr : parseLinesGo rest false with
        | mk t r => rw [hpr] at this; exact this

/-- parseReferences can never extract a citation: the regex it applies to
each line requires a newline character, but the lines were produced by
splitting at newlines. -/
theorem parseReferences_refs_eq_nil (content : String) :
    (parseReferences content).references = [] := by
  have h := parseLinesGo_refs_eq_nil
    (fun line hl => not_nl_mem_of_mem_splitOnNl (l := content.data) hl) false
  unfold parseReferences
  cases hpr : parseLinesGo (splitOnNl content.data) false with
  | mk t r =>
    rw [hpr] at h
    simpa using h

theorem parseLinesGo_no_marker {lines : List (List Char)}
    (h : ∀ line ∈ lines, containsMarker line = false) :
    parseLinesGo lines false = (lines, []) := by
  induction lines with
  | nil => rfl
  | cons line rest ih =>
    rw [parseLinesGo, if_neg (by simp [h line (List.mem_cons_self _ _)])]
    rw [if_neg (by simp)]
    rw [ih (fun l hl => h l (List.mem_cons_of_mem _ hl))]

/-! ### Claim theorems for the reference extractor -/

/-- C1: the round-trip property fails in the code.  On the marker input with
the citation record on the following two lines, parseReferences does keep
only the text before the marker as visible text, but it extracts no citation
at all: the regex it applies to each line demands a literal newline, and no
line produced by splitting at newlines contains one.  The first conjunct
shows the citation list is empty for every input whatsoever; the second
evaluates the parser at the specification's own round-trip input. -/
theorem parseReferences_roundTrip_bug :
    (∀ content : String, (parseReferences content).references = [])
    ∧ parseReferences "您好\n**参考文档:**\n1. doc.pdf\n   preview text"
        = ⟨"您好", []⟩ := by
  refine ⟨parseReferences_refs_eq_nil, ?_⟩
  rfl

/-- C8: on an input none of whose lines contains the reference marker,
parseReferences returns the whole input unchanged as the visible text and an
empty citation list. -/
theorem parseReferences_no_marker_id (content : String)
    (h : ∀ line ∈ splitOnNl content.data, containsMarker line = false) :
    parseReferences content = ⟨content, []⟩ := by
  unfold parseReferences
  rw [parseLinesGo_no_marker h]
  show ParseResult.mk (String.mk (joinNl (splitOnNl content.data))) [] = ⟨content, []⟩
  rw [joinNl_splitOnNl]

/-- Witness for C8 at a concrete marker-free input. -/
theorem parseReferences_no_marker_id_witness :
    parseReferences "hello\nworld" = ⟨"hello\nworld", []⟩ :=
  parseReferences_no_marker_id "hello\nworld" (by decide)

/-! ### Lemmas about the stream reassembler -/

theorem jsOrStr_some_empty (x : String) : jsOrStr (some x) "" = x := by
  by_cases hx : x = "" <;> simp [jsOrStr, hx]

theorem jsOrStr_absorb (a : Option String) (b : String) :
    jsOrStr (some (jsOrStr a b)) (jsOrStr a "") = jsOrStr a b := by
  cases a with
  | none =>
    by_cases hb : b = "" <;> simp [jsOrStr, hb]
  | some s =>
    by_cases hs : s = ""
    · subst hs
      by_cases hb : b = "" <;> simp [jsOrStr, hb]
    · simp [jsOrStr, hs]

theorem StreamMap.get_set_self (m : StreamMap) (k : String) (v : StreamMessage) :
    (StreamMap.set m k v).get k = some v := by
  induction m with
  | nil => simp [StreamMap.set, StreamMap.get, List.find?]
  | cons e t ih =>
    rw [StreamMap.set]
    by_cases he : e.1 == k
    · rw [if_pos he]
      simp [StreamMap.get, List.find?]
    · rw [if_neg he]
      rw [StreamMap.get] at ih ⊢
      rw [List.find?]
      rw [Bool.not_eq_true] at he
      rw [he]
      exact ih

theorem StreamMap.get_erase_self (m : StreamMap) (k : String) :
    (StreamMap.erase m k).get k = none := by
  induction m with
  | nil => rfl
  | cons e t ih =>
    rw [StreamMap.erase, List.filter]
    by_cases he : e.1 == k
    · rw [he]
      exact ih
    · rw [Bool.not_eq_true] at he
      rw [he]
      show StreamMap.get (e :: StreamMap.erase t k) k = none
      rw [StreamMap.get, List.find?, he]
      exact ih

/-- A chunk frame arriving with no buffer for its stream installs a fresh
buffer whose content is the frame's content and notifies once, not
complete, with that content; nothing is scheduled. -/
theorem handleStream_chunk_none (now : Nat) (msg : WebSocketMessage)
    (m : StreamMap) (sid : String)
    (h1 : msg.type = "stream_message") (h2 : msg.stream_id = some sid)
    (h3 : sid ≠ "") (h4 : StreamMap.get m sid = none) :
    ∃ sm : StreamMessage,
      handleStreamMessage now msg m
        = ⟨StreamMap.set m sid sm, [⟨sid, sm.content, false⟩], []⟩
      ∧ sm.content = jsOrStr msg.content "" := by
  unfold handleStreamMessage
  rw [h2]
  dsimp only
  rw [h1, if_neg h3, if_neg (by decide), if_pos rfl, h4]
  dsimp only
  rw [jsOrStr_some_empty]
  exact ⟨_, rfl, rfl⟩

/-- A chunk frame arriving with a buffer in place appends its content to the
buffer and notifies once, not complete, with the accumulated content;
nothing is scheduled. -/
theorem handleStream_chunk_some (now : Nat) (msg : WebSocketMessage)
    (m : StreamMap) (sid : String) (sm : StreamMessage)
    (h1 : msg.type = "stream_message") (h2 : msg.stream_id = some sid)
    (h3 : sid ≠ "") (h4 : StreamMap.get m sid = some sm) :
    ∃ sm2 : StreamMessage,
      handleStreamMessage now msg m
        = ⟨StreamMap.set m sid sm2, [⟨sid, sm2.content, false⟩], []⟩
      ∧ sm2.content = sm.content ++ jsOrStr msg.content "" := by
  unfold handleStreamMessage
  rw [h2]
  dsimp only
  rw [h1, if_neg h3, if_neg (by decide), if_pos rfl, h4]
  dsimp only
  rw [jsOrStr_some_empty]
  exact ⟨_, rfl, rfl⟩

/-- An end frame arriving with a buffer in place notifies completion once
with the frame's content when that is truthy and the accumulated buffer
otherwise, and schedules the buffer's deletion after 5000 milliseconds. -/
theorem handleStream_end_some (now : Nat) (msg : WebSocketMessage)
    (m : StreamMap) (sid : String) (sm : StreamMessage)
    (h1 : msg.type = "stream_end") (h2 : msg.stream_id = some sid)
    (h3 : sid ≠ "") (h4 : StreamMap.get m sid = some sm) :
    ∃ sm2 : StreamMessage,
      handleStreamMessage now msg m
        = ⟨StreamMap.set m sid sm2,
           [⟨sid, jsOrStr msg.content sm.content, true⟩], [(sid, 5000)]⟩
      ∧ sm2.content = jsOrStr msg.content sm.content := by
  unfold handleStreamMessage
  rw [h2]
  dsimp only
  rw [h1, if_neg h3, if_neg (by decide), if_neg (by decide), if_pos rfl, h4]
  dsimp only
  rw [jsOrStr_absorb]
  exact ⟨_, rfl, rfl⟩

/-- An end frame arriving with no buffer leaves the map untouched, schedules
nothing, and notifies completion once with the frame's content, empty when
absent. -/
theorem handleStream_end_none (now : Nat) (msg : WebSocketMessage)
    (m : StreamMap) (sid : String)
    (h1 : msg.type = "stream_end") (h2 : msg.stream_id = some sid)
    (h3 : sid ≠ "") (h4 : StreamMap.get m sid = none) :
    handleStreamMessage now msg m = ⟨m, [⟨sid, jsOrStr msg.content "", true⟩], []⟩ := by
  unfold handleStreamMessage
  rw [h2]
  dsimp only
  rw [h1, if_neg h3, if_neg (by decide), if_neg (by decide), if_pos rfl, h4]

theorem runStream_append (now : Nat) (fs1 fs2 : List WebSocketMessage) (m : StreamMap) :
    runStream now (fs1 ++ fs2) m =
      ((runStream now fs2 (runStream now fs1 m).1).1,
       (runStream now fs1 m).2.1 ++ (runStream now fs2 (runStream now fs1 m).1).2.1,
       (runStream now fs1 m).2.2 ++ (runStream now fs2 (runStream now fs1 m).1).2.2) := by
  induction fs1 generalizing m with
  | nil => simp [runStream]
  | cons f t ih =>
    simp only [List.cons_append, runStream, List.append_eq]
    rw [ih]
    simp [List.append_assoc]

/-- Running a list of chunk frames for a stream that already has a buffer
appends all their contents to the buffer, emits only non-complete
notifications, and schedules nothing. -/
theorem runStream_chunks (now : Nat) (sid : String) (hsid : sid ≠ "") :
    ∀ (frames : List WebSocketMessage),
      (∀ f ∈ frames, f.type = "stream_message" ∧ f.stream_id = some sid) →
      ∀ (m : StreamMap) (sm : StreamMessage), StreamMap.get m sid = some sm →
      ∃ sm2 : StreamMessage,
        StreamMap.get (runStream now frames m).1 sid = some sm2
        ∧ sm2.content = sm.content ++ concatContents frames
        ∧ (∀ e ∈ (runStream now frames m).2.1, e.isComplete = false)
        ∧ (runStream now frames m).2.2 = [] := by
  intro frames
  induction frames with
  | nil =>
    intro _ m sm hm
    refine ⟨sm, hm, ?_, fun e he => absurd he (List.not_mem_nil e), rfl⟩
    rw [concatContents, String.append_empty]
  | cons f fs ih =>
    intro hf m sm hm
    obtain ⟨h1, h2⟩ := hf f (List.mem_cons_self f fs)
    obtain ⟨sm2, hstep, hcontent⟩ := handleStream_chunk_some now f m sid sm h1 h2 hsid hm
    rw [runStream, hstep]
    dsimp only
    obtain ⟨sm3, hget, hcont3, hevs, htimers⟩ :=
      ih (fun g hg => hf g (List.mem_cons_of_mem f hg))
        (StreamMap.set m sid sm2) sm2 (StreamMap.get_set_self m sid sm2)
    refine ⟨sm3, hget, ?_, ?_, ?_⟩
    · rw [hcont3, hcontent, concatContents, String.append_assoc]
    · intro e he
      rcases List.mem_append.mp he with h | h
      · rw [List.mem_singleton.mp h]
      · exact hevs e h
    · rw [List.nil_append, htimers]

/-- Running a list of chunk frames for a stream with no pre-existing buffer
emits only non-complete notifications and leaves the buffer holding exactly
the concatenation of the chunk contents, unless the list was empty, in which
case no buffer is created. -/
theorem runStream_from_none (now : Nat) (sid : String) (hsid : sid ≠ "")
    (frames : List WebSocketMessage)
    (hf : ∀ f ∈ frames, f.type = "stream_message" ∧ f.stream_id = some sid)
    (m : StreamMap) (hm : StreamMap.get m sid = none) :
    (∀ e ∈ (runStream now frames m).2.1, e.isComplete = false)
    ∧ ((StreamMap.get (runStream now frames m).1 sid = none ∧ frames = [])
       ∨ (∃ sm2, StreamMap.get (runStream now frames m).1 sid = some sm2
            ∧ sm2.content = concatContents frames)) := by
  cases frames with
  | nil =>
    exact ⟨fun e he => absurd he (List.not_mem_nil e), Or.inl ⟨hm, rfl⟩⟩
  | cons f fs =>
    obtain ⟨h1, h2⟩ := hf f (List.mem_cons_self f fs)
    obtain ⟨sm0, hstep, hc0⟩ := handleStream_chunk_none now f m sid h1 h2 hsid hm
    rw [runStream, hstep]
    dsimp only
    obtain ⟨sm1, hget, hcont, hevs, -⟩ :=
      runStream_chunks now sid hsid fs (fun g hg => hf g (List.mem_cons_of_mem f hg))
        (StreamMap.set m sid sm0) sm0 (StreamMap.get_set_self m sid sm0)
    constructor
    · intro e he
      rcases List.mem_append.mp he with h | h
      · rw [List.mem_singleton.mp h]
      · exact hevs e h
    · exact Or.inr ⟨sm1, hget, by rw [hcont, hc0, concatContents]⟩

/-! ### Claim theorems for the stream reassembler -/

/-- C2: for a stream identifier with no pre-existing buffer, processing any
sequence of chunk frames for that identifier followed by one end frame
yields exactly one completion notification, whose text is the end frame's
content when that is truthy and otherwise the concatenation of the chunk
contents in arrival order. -/
theorem stream_reassembly (now : Nat) (sid : String) (hsid : sid ≠ "")
    (frames : List WebSocketMessage)
    (hf : ∀ f ∈ frames, f.type = "stream_message" ∧ f.stream_id = some sid)
    (endMsg : WebSocketMessage)
    (he1 : endMsg.type = "stream_end") (he2 : endMsg.stream_id = some sid)
    (m : StreamMap) (hm : StreamMap.get m sid = none) :
    completions (runStream now (frames ++ [endMsg]) m).2.1 =
      [⟨sid, jsOrStr endMsg.content (concatContents frames), true⟩] := by
  obtain ⟨hevs, hstate⟩ := runStream_from_none now sid hsid frames hf m hm
  rw [runStream_append]
  unfold completions
  show List.filter _ ((runStream now frames m).2.1
      ++ (runStream now [endMsg] (runStream now frames m).1).2.1) = _
  rw [List.filter_append]
  have hfil : List.filter (fun e => e.isComplete) (runStream now frames m).2.1 = [] :=
    List.filter_eq_nil_iff.mpr (fun e he => by rw [hevs e he]; simp)
  rw [hfil, List.nil_append]
  rcases hstate with ⟨hnone, hfe⟩ | ⟨sm2, hsome, hcont⟩
  · subst hfe
    have hnone2 : StreamMap.get m sid = none := hnone
    simp only [runStream]
    rw [handleStream_end_none now endMsg m sid he1 he2 hsid hnone2]
    simp [concatContents]
  · obtain ⟨sm3, hstep, -⟩ :=
      handleStream_end_some now endMsg _ sid sm2 he1 he2 hsid hsome
    simp only [runStream, hstep]
    simp [hcont]

/-- Witness for C2: two chunks then an end frame without content notify
completion with the concatenated text. -/
theorem stream_reassembly_witness :
    completions (runStream 0
        [chunkFrame "s1" (some "Hello, "), chunkFrame "s1" (some "world"),
         endFrame "s1" none] []).2.1
      = [⟨"s1", jsOrStr none (concatContents
          [chunkFrame "s1" (some "Hello, "), chunkFrame "s1" (some "world")]), true⟩] :=
  stream_reassembly 0 "s1" (by decide)
    [chunkFrame "s1" (some "Hello, "), chunkFrame "s1" (some "world")]
    (by decide) (endFrame "s1" none) rfl rfl [] rfl

/-- C3 counterexample: the original claim asserts that a late duplicate end
frame arriving after the grace-window deletion triggers no further
notification.  Concretely: a chunk then an end frame for stream s1 are
processed from an empty map, the end schedules the deletion after 5000
milliseconds, and firing it removes the buffer; but a duplicate end frame
arriving then is not dropped — the no-buffer branch notifies the stream
listeners once more, with completion set. -/
theorem stream_end_duplicate_notifies_cex :
    (handleStreamMessage 0 (endFrame "s1" (some "X"))
        (handleStreamMessage 0 (chunkFrame "s1" (some "X")) []).map).timers
      = [("s1", 5000)]
    ∧ StreamMap.get
        (StreamMap.erase
          (handleStreamMessage 0 (endFrame "s1" (some "X"))
            (handleStreamMessage 0 (chunkFrame "s1" (some "X")) []).map).map "s1") "s1"
      = none
    ∧ (handleStreamMessage 1 (endFrame "s1" (some "X"))
        (StreamMap.erase
          (handleStreamMessage 0 (endFrame "s1" (some "X"))
            (handleStreamMessage 0 (chunkFrame "s1" (some "X")) []).map).map "s1")).events
      = [⟨"s1", "X", true⟩] := by
  refine ⟨rfl, rfl, rfl⟩

/-- C3 amended: after the grace window following an end frame the buffer for
that identifier indeed no longer exists, but a late duplicate end frame is
not dropped silently: finding no buffer, it leaves the stream state
untouched and schedules nothing, yet it does notify the stream listeners
once more, with completion set and the duplicate frame's own content, empty
when absent. -/
theorem stream_end_grace_window_duplicate (now now2 : Nat) (sid : String)
    (hsid : sid ≠ "") (endMsg dupMsg : WebSocketMessage)
    (he1 : endMsg.type = "stream_end") (he2 : endMsg.stream_id = some sid)
    (hd1 : dupMsg.type = "stream_end") (hd2 : dupMsg.stream_id = some sid)
    (m : StreamMap) (sm : StreamMessage) (hm : StreamMap.get m sid = some sm) :
    (handleStreamMessage now endMsg m).timers = [(sid, 5000)]
    ∧ StreamMap.get
        (StreamMap.erase (handleStreamMessage now endMsg m).map sid) sid = none
    ∧ handleStreamMessage now2 dupMsg
        (StreamMap.erase (handleStreamMessage now endMsg m).map sid)
      = ⟨StreamMap.erase (handleStreamMessage now endMsg m).map sid,
         [⟨sid, jsOrStr dupMsg.content "", true⟩], []⟩ := by
  obtain ⟨sm2, hstep, -⟩ := handleStream_end_some now endMsg m sid sm he1 he2 hsid hm
  refine ⟨by rw [hstep], ?_, ?_⟩
  · exact StreamMap.get_erase_self _ sid
  · exact handleStream_end_none now2 dupMsg _ sid hd1 hd2 hsid
      (StreamMap.get_erase_self _ sid)

/-- Witness for the amended C3 at a concrete stream. -/
theorem stream_end_grace_window_duplicate_witness :
    (handleStreamMessage 0 (endFrame "s1" none) [("s1", ⟨"AB", 1, 1, [], false, 0⟩)]).timers
      = [("s1", 5000)]
    ∧ StreamMap.get
        (StreamMap.erase
          (handleStreamMessage 0 (endFrame "s1" none)
            [("s1", ⟨"AB", 1, 1, [], false, 0⟩)]).map "s1") "s1" = none
    ∧ handleStreamMessage 9 (endFrame "s1" none)
        (StreamMap.erase
          (handleStreamMessage 0 (endFrame "s1" none)
            [("s1", ⟨"AB", 1, 1, [], false, 0⟩)]).map "s1")
      = ⟨StreamMap.erase
          (handleStreamMessage 0 (endFrame "s1" none)
            [("s1", ⟨"AB", 1, 1, [], false, 0⟩)]).map "s1",
         [⟨"s1", jsOrStr none "", true⟩], []⟩ :=
  stream_end_grace_window_duplicate 0 9 "s1" (by decide)
    (endFrame "s1" none) (endFrame "s1" none) rfl rfl rfl rfl
    [("s1", ⟨"AB", 1, 1, [], false, 0⟩)] ⟨"AB", 1, 1, [], false, 0⟩ rfl

/-- C10: a frame bearing one of the stream tags but no stream identifier is
not handed to the stream reassembler: the stream map, the stream listeners
and the timers are untouched, and the frame goes to the ordinary message
listeners instead. -/
theorem streamless_frame_bypasses_reassembler (now : Nat)
    (msg : WebSocketMessage) (m : StreamMap)
    (h : msg.stream_id = none)
    (_ht : msg.type = "stream_start" ∨ msg.type = "stream_message"
      ∨ msg.type = "stream_end") :
    handleMessage now msg m = ⟨m, [], [], [msg]⟩ := by
  have hfalse : isStreamFrame msg = false := by
    unfold isStreamFrame
    rw [h]
    rfl
  unfold handleMessage
  rw [hfalse]
  simp

/-- Witness for C10 on a concrete identifier-free end frame. -/
theorem streamless_frame_bypasses_reassembler_witness :
    handleMessage 0 { type := "stream_end", content := some "X" } []
      = ⟨[], [], [], [{ type := "stream_end", content := some "X" }]⟩ :=
  streamless_frame_bypasses_reassembler 0
    { type := "stream_end", content := some "X" } [] rfl
    (Or.inr (Or.inr rfl))

/-! ### Claim theorems for the transport adapter -/

theorem uncleanCloseRun_eq :
    ∀ (n a : Nat), uncleanCloseRun n a =
      (List.range (min n (maxReconnectAttempts - a))).map
        (fun i => reconnectInterval * (a + i + 1)) := by
  intro n
  induction n with
  | zero => intro a; simp [uncleanCloseRun]
  | succ k ih =>
    intro a
    rw [uncleanCloseRun]
    by_cases ha : a < maxReconnectAttempts
    · rw [onClose, if_pos (by simp [ha])]
      dsimp only [scheduleReconnect]
      rw [ih (a + 1)]
      have hsub : maxReconnectAttempts - a = (maxReconnectAttempts - (a + 1)) + 1 := by
        omega
      rw [hsub, Nat.succ_min_succ, List.range_succ_eq_map]
      simp only [List.map_cons, List.map_map]
      congr 1
      apply List.map_congr_left
      intro i _
      simp only [Function.comp_apply]
      congr 1
      omega
    · rw [onClose, if_neg (by simp [ha])]
      dsimp only
      rw [ih a]
      have hsub : maxReconnectAttempts - a = 0 := by omega
      rw [hsub]
      simp

/-- C4: starting from a fresh counter, a run of consecutive unclean closes
schedules one reconnection attempt per close with delays 3000, 6000, 9000,
... milliseconds, stopping after at most five attempts in total; the delays
are strictly increasing; and a deliberate disconnect schedules no attempt at
all. -/
theorem reconnect_policy (n : Nat) :
    uncleanCloseRun n 0 =
      (List.range (min n maxReconnectAttempts)).map (fun i => reconnectInterval * (i + 1))
    ∧ (uncleanCloseRun n 0).length ≤ 5
    ∧ List.Pairwise (· < ·) (uncleanCloseRun n 0)
    ∧ ∀ a : Nat, (disconnect a).2 = none := by
  have heq := uncleanCloseRun_eq n 0
  simp only [Nat.sub_zero, Nat.zero_add] at heq
  refine ⟨heq, ?_, ?_, fun a => rfl⟩
  · rw [heq]
    simp only [List.length_map, List.length_range]
    calc min n maxReconnectAttempts ≤ maxReconnectAttempts := Nat.min_le_right _ _
    _ ≤ 5 := le_refl _
  · rw [heq]
    refine List.Pairwise.map _ ?_ (List.pairwise_lt_range _)
    intro i j hij
    have hpos : 0 < reconnectInterval := by decide
    exact (Nat.mul_lt_mul_left hpos).mpr (by omega)

/-- C7: sendMessage returns false whenever the socket is absent or not open,
in which case nothing reaches the connection; when the socket is open it
hands the connection the JSON envelope with tag message, the given content,
the current timestamp and the multi-agent flag, returning true if the
underlying send succeeded — and a throwing send is caught and converted into
a false return, the envelope having been attempted. -/
theorem sendMessage_capability (ws : Option ReadyState)
    (content timestamp : String) (sendOk : Bool) :
    ((∀ st, ws = some st → st ≠ ReadyState.OPEN) →
        sendMessage ws content timestamp sendOk = (false, none))
    ∧ (ws = some ReadyState.OPEN → sendOk = true →
        sendMessage ws content timestamp sendOk
          = (true, some ⟨"message", content, timestamp, true⟩))
    ∧ (ws = some ReadyState.OPEN → sendOk = false →
        sendMessage ws content timestamp sendOk
          = (false, some ⟨"message", content, timestamp, true⟩)) := by
  refine ⟨?_, ?_, ?_⟩
  · intro h
    cases ws with
    | none => rfl
    | some st =>
      have hne : st ≠ ReadyState.OPEN := h st rfl
      unfold sendMessage
      dsimp only
      rw [if_pos hne]
  · intro hws hok
    subst hws hok
    rfl
  · intro hws hok
    subst hws hok
    rfl

/-- Witness for C7: no socket means a false return and nothing sent; an open
socket with a working send returns true and the envelope. -/
theorem sendMessage_capability_witness :
    sendMessage none "hi" "2026-01-01" true = (false, none)
    ∧ sendMessage (some ReadyState.OPEN) "hi" "2026-01-01" true
        = (true, some ⟨"message", "hi", "2026-01-01", true⟩) :=
  ⟨(sendMessage_capability none "hi" "2026-01-01" true).1
      (fun st h => by cases h),
   (sendMessage_capability (some ReadyState.OPEN) "hi" "2026-01-01" true).2.1 rfl rfl⟩

/-! ### Lemmas and claim theorems for the message store -/

theorem addOrUpdate_create (s : ChatStore) (hs : s.streamingMessage = none)
    (c sid : String) (r : Option (List Reference)) (fid : String) (t : Nat) :
    addOrUpdateStreamingMessage s c false sid r fid t
      = { s with
          streamingMessage := some (freshStreamingMsg c sid r fid t) } := by
  rw [addOrUpdateStreamingMessage, hs]
  rfl

theorem addOrUpdate_update (s : ChatStore) (sm : ChatMessage)
    (hsm : s.streamingMessage = some sm) (c sid : String)
    (r : Option (List Reference)) (fid : String) (t : Nat) :
    addOrUpdateStreamingMessage s c false sid r fid t
      = { s with
          streamingMessage := some ({ sm with content := c }) } := by
  rw [addOrUpdateStreamingMessage, hsm]
  rfl

theorem addOrUpdate_complete (s : ChatStore) (sm : ChatMessage)
    (hsm : s.streamingMessage = some sm) (c sid : String)
    (r : Option (List Reference)) (fid : String) (t : Nat) :
    addOrUpdateStreamingMessage s c true sid r fid t
      = { messages :=
            s.messages ++ [finalizeStreamingMsg ({ sm with content := c }) r]
          streamingMessage := none } := by
  rw [addOrUpdateStreamingMessage, hsm]
  rfl

/-- C5: from an empty streaming slot, two non-complete calls followed by one
complete call of addOrUpdateStreamingMessage append exactly one finalized
message, carrying the content of the final call, and leave the slot empty. -/
theorem store_streaming_lifecycle (s : ChatStore) (hs : s.streamingMessage = none)
    (c1 c2 c3 sid1 sid2 sid3 : String)
    (r1 r2 r3 : Option (List Reference))
    (id1 id2 id3 : String) (t1 t2 t3 : Nat) :
    (addOrUpdateStreamingMessage
      (addOrUpdateStreamingMessage
        (addOrUpdateStreamingMessage s c1 false sid1 r1 id1 t1)
        c2 false sid2 r2 id2 t2)
      c3 true sid3 r3 id3 t3).streamingMessage = none
    ∧ ∃ fm : ChatMessage,
        (addOrUpdateStreamingMessage
          (addOrUpdateStreamingMessage
            (addOrUpdateStreamingMessage s c1 false sid1 r1 id1 t1)
            c2 false sid2 r2 id2 t2)
          c3 true sid3 r3 id3 t3).messages = s.messages ++ [fm]
        ∧ fm.content = c3 := by
  rw [addOrUpdate_create s hs c1 sid1 r1 id1 t1]
  rw [addOrUpdate_update _ _ rfl c2 sid2 r2 id2 t2]
  rw [addOrUpdate_complete _ _ rfl c3 sid3 r3 id3 t3]
  exact ⟨rfl, _, rfl, rfl⟩

/-- Witness for C5 from the initial store. -/
theorem store_streaming_lifecycle_witness :
    (addOrUpdateStreamingMessage
      (addOrUpdateStreamingMessage
        (addOrUpdateStreamingMessage ChatStore.init "H" false "s1" none "id1" 0)
        "He" false "s1" none "id2" 1)
      "Hey" true "s1" none "id3" 2).streamingMessage = none
    ∧ ∃ fm : ChatMessage,
        (addOrUpdateStreamingMessage
          (addOrUpdateStreamingMessage
            (addOrUpdateStreamingMessage ChatStore.init "H" false "s1" none "id1" 0)
            "He" false "s1" none "id2" 1)
          "Hey" true "s1" none "id3" 2).messages = ChatStore.init.messages ++ [fm]
        ∧ fm.content = "Hey" :=
  store_streaming_lifecycle ChatStore.init rfl
    "H" "He" "Hey" "s1" "s1" "s1" none none none "id1" "id2" "id3" 0 1 2

theorem store_messages_not_streaming (s : ChatStore) (h : Reachable s) :
    ∀ m ∈ s.messages, m.isStreaming ≠ some true := by
  induction h with
  | init =>
    intro m hm
    exact absurd hm (List.not_mem_nil m)
  | add hr hm ih =>
    intro x hx
    rcases List.mem_append.mp hx with h1 | h1
    · exact ih x h1
    · rw [List.mem_singleton.mp h1]
      exact hm
  | stream c ic sid r fid now hr ih =>
    intro x hx
    rename_i s0
    cases hsm : s0.streamingMessage with
    | some sm =>
      cases ic with
      | true =>
        rw [addOrUpdate_complete s0 sm hsm c sid r fid now] at hx
        rcases List.mem_append.mp hx with h1 | h1
        · exact ih x h1
        · rw [List.mem_singleton.mp h1]
          simp [finalizeStreamingMsg]
      | false =>
        rw [addOrUpdate_update s0 sm hsm c sid r fid now] at hx
        exact ih x hx
    | none =>
      cases ic with
      | true =>
        rw [addOrUpdateStreamingMessage, hsm] at hx
        exact ih x hx
      | false =>
        rw [addOrUpdate_create s0 hsm c sid r fid now] at hx
        exact ih x hx
  | clear hr ih =>
    intro m hm
    exact absurd hm (List.not_mem_nil m)

/-- C6: in every state reachable by the store's operations, every finalized
list entry has its streaming flag unset, and at most one in-progress message
exists in the whole store — necessarily the single streaming slot. -/
theorem store_single_streaming_invariant (s : ChatStore) (h : Reachable s) :
    (∀ m ∈ s.messages, m.isStreaming ≠ some true)
    ∧ (streamingEntries s).length ≤ 1 := by
  have hmsgs := store_messages_not_streaming s h
  refine ⟨hmsgs, ?_⟩
  unfold streamingEntries
  rw [List.length_append]
  have h1 : s.messages.filter (fun m => m.isStreaming == some true) = [] :=
    List.filter_eq_nil_iff.mpr (fun m hm => by simpa using hmsgs m hm)
  have h2 : (match s.streamingMessage with
      | some sm => List.filter (fun (m : ChatMessage) => m.isStreaming == some true) [sm]
      | none => ([] : List ChatMessage)).length ≤ 1 := by
    cases s.streamingMessage with
    | none => simp
    | some sm =>
      simpa using
        List.length_filter_le (fun (m : ChatMessage) => m.isStreaming == some true) [sm]
  rw [h1]
  simpa using h2

/-- Witness for C6: in the reachable state obtained by streaming a message
to completion, the finalized entry is not in progress and the store holds no
in-progress message at all. -/
theorem store_single_streaming_invariant_witness :
    ((addOrUpdateStreamingMessage
        (addOrUpdateStreamingMessage ChatStore.init "H" false "s1" none "id1" 0)
        "Hey" true "s1" none "id2" 1).messages.getD 0 default).isStreaming
      ≠ some true
    ∧ (streamingEntries (addOrUpdateStreamingMessage
        (addOrUpdateStreamingMessage ChatStore.init "H" false "s1" none "id1" 0)
        "Hey" true "s1" none "id2" 1)).length ≤ 1 :=
  ⟨(store_single_streaming_invariant _
      (Reachable.stream "Hey" true "s1" none "id2" 1
        (Reachable.stream "H" false "s1" none "id1" 0 Reachable.init))).1
      _ (by decide),
   (store_single_streaming_invariant _
      (Reachable.stream "Hey" true "s1" none "id2" 1
        (Reachable.stream "H" false "s1" none "id1" 0 Reachable.init))).2⟩

/-- C9: a completion call of addOrUpdateStreamingMessage while the streaming
slot is empty changes nothing: no message is appended, the slot stays empty,
and the supplied content and citations are discarded. -/
theorem store_complete_on_empty_slot_noop (s : ChatStore)
    (hs : s.streamingMessage = none) (content sid : String)
    (references : Option (List Reference)) (freshId : String) (now : Nat) :
    addOrUpdateStreamingMessage s content true sid references freshId now = s := by
  rw [addOrUpdateStreamingMessage, hs]
  rfl

/-- Witness for C9 on the initial store. -/
theorem store_complete_on_empty_slot_noop_witness :
    addOrUpdateStreamingMessage ChatStore.init "lost text" true "s1"
        (some [⟨"doc.pdf", "preview"⟩]) "id9" 7 = ChatStore.init :=
  store_complete_on_empty_slot_noop ChatStore.init rfl "lost text" "s1"
    (some [⟨"doc.pdf", "preview"⟩]) "id9" 7

end CustomerServer
